import Mathlib

/-!
Verification development for the content-addressed transfer pipeline of the
file-sharing app (Iroh-backed server in src/server/src/services/irohService.ts
plus its Express controller, and the client download/compression hook).

Blobs are modelled as lists of bytes (List Nat).  JavaScript numbers that hold
byte offsets are modelled as Int where the source can produce negative values
(range clamping) and as Nat elsewhere.
-/

namespace AirShare

/-- Model of `node.blobs.readAtToBytes(hash, offset, AtMost len)`: returns at
most `len` bytes of the blob starting at `offset` (empty past the end). -/
def readAtToBytes (blob : List Nat) (offset len : Nat) : List Nat :=
  (blob.drop offset).take len

/-- The chunk loop inside `getBlobStream` (irohService.ts lines 195-212).
The source iterates `while offset <= endBigInt`; here `stop` is the exclusive
bound `endOffset + 1` (converted to Nat by the caller: the loop body never
runs when the inclusive end is below the non-negative start).  Each pass reads
`min (remaining) chunkSize` bytes at `offset`, stops on an empty read, and
advances by the number of bytes actually read. -/
def chunkIterator (blob : List Nat) (chunkSize offset stop : Nat) : List (List Nat) :=
  if h : offset < stop then
    let len := min (stop - offset) chunkSize
    let bytes := readAtToBytes blob offset len
    if hb : bytes.length = 0 then []
    else bytes :: chunkIterator blob chunkSize (offset + bytes.length) stop
  else []
termination_by stop - offset
decreasing_by
  have hb2 : (readAtToBytes blob offset ((stop - offset) ⊓ chunkSize)).length ≠ 0 := hb
  omega

/-- Result shape of `getBlobStream`: the blob size, the clamped range
endpoints, and the chunk sequence the iterator yields. -/
structure BlobStreamResult where
  size : Nat
  rangeStart : Int
  rangeEnd : Int
  chunks : List (List Nat)
deriving Repr, DecidableEq

/-- Model of `getBlobStream` (irohService.ts lines 184-224):
`startOffset = max(0, min(range.start, size - 1))`,
`endOffset = min(range.end, size - 1)` (full blob when no range is given),
then the chunk iterator runs over the inclusive range
`[startOffset, endOffset]`. -/
def getBlobStream (blob : List Nat) (chunkSize : Nat) (range : Option (Int × Int)) :
    BlobStreamResult :=
  let size := blob.length
  let startOffset : Int :=
    match range with
    | some r => max 0 (min r.1 ((size : Int) - 1))
    | Option.none => 0
  let endOffset : Int :=
    match range with
    | some r => min r.2 ((size : Int) - 1)
    | Option.none => (size : Int) - 1
  { size := size
    rangeStart := startOffset
    rangeEnd := endOffset
    chunks := chunkIterator blob chunkSize startOffset.toNat (endOffset + 1).toNat }

/-- HTTP response produced by the download controller. -/
structure DownloadResponse where
  status : Nat
  contentLength : Nat
  body : List Nat
deriving Repr, DecidableEq

/-- Model of `handleDownloadTicket` (controller lines 340-381).  The source
calls `getBlobStream(ticket)` with no range argument and never reads the
Range header of the request; `rangeHeader` is carried here to mirror the request
but, exactly as in the source, is never consulted.  Express leaves the status
at 200 and the handler writes every chunk of the full blob. -/
def handleDownloadTicket (blob : List Nat) (chunkSize : Nat)
    (rangeHeader : Option (Int × Int)) : DownloadResponse :=
  let s := getBlobStream blob chunkSize Option.none
  { status := 200, contentLength := s.size, body := s.chunks.flatten }

theorem readAtToBytes_length (blob : List Nat) (offset len : Nat) :
    (readAtToBytes blob offset len).length = min len (blob.length - offset) := by
  simp [readAtToBytes]

theorem chunkIterator_nil_of_le (blob : List Nat) (chunkSize offset stop : Nat)
    (h : stop ≤ offset) : chunkIterator blob chunkSize offset stop = [] := by
  rw [chunkIterator.eq_1]
  simp [Nat.not_lt.mpr h]

theorem chunkIterator_lt_of_ne_nil (blob : List Nat) (chunkSize offset stop : Nat)
    (h : chunkIterator blob chunkSize offset stop ≠ []) : offset < stop := by
  by_contra hc
  exact h (chunkIterator_nil_of_le blob chunkSize offset stop (Nat.not_lt.mp hc))

/-- Coverage of the chunk loop: over any window `[offset, stop)` inside the
blob the concatenation of the yielded chunks is exactly that slice. -/
theorem chunkIterator_join (blob : List Nat) (chunkSize : Nat) (hcs : 0 < chunkSize) :
    ∀ offset stop, stop ≤ blob.length →
      (chunkIterator blob chunkSize offset stop).flatten =
        (blob.drop offset).take (stop - offset) := by
  have main : ∀ n offset stop, stop - offset = n → stop ≤ blob.length →
      (chunkIterator blob chunkSize offset stop).flatten =
        (blob.drop offset).take (stop - offset) := by
    intro n
    induction n using Nat.strong_induction_on with
    | _ n ih =>
      intro offset stop hn hstop
      rw [chunkIterator.eq_1]
      by_cases h : offset < stop
      · have hlen : (readAtToBytes blob offset (min (stop - offset) chunkSize)).length
            = min (stop - offset) chunkSize := by
          rw [readAtToBytes_length]
          omega
        have hpos : 0 < min (stop - offset) chunkSize := by omega
        simp only [h, dif_pos, hlen]
        rw [dif_neg (by omega)]
        have hrec := ih (stop - (offset + min (stop - offset) chunkSize)) (by omega)
          (offset + min (stop - offset) chunkSize) stop rfl hstop
        rw [List.flatten_cons, hrec]
        rw [readAtToBytes]
        set L := (stop - offset) ⊓ chunkSize with hL
        have hsplit : stop - offset = L + (stop - (offset + L)) := by omega
        rw [hsplit, List.take_add]
        congr 1
        rw [List.drop_drop]
      · simp only [h, dif_neg, not_false_iff, List.flatten]
        have : stop - offset = 0 := by omega
        rw [this, List.take_zero]
  intro offset stop hstop
  exact main (stop - offset) offset stop rfl hstop

/-- Every chunk except possibly the last has exactly the fixed chunk length. -/
theorem chunkIterator_sizes (blob : List Nat) (chunkSize : Nat) :
    ∀ offset stop, stop ≤ blob.length →
      ∀ c ∈ (chunkIterator blob chunkSize offset stop).dropLast, c.length = chunkSize := by
  have main : ∀ n offset stop, stop - offset = n → stop ≤ blob.length →
      ∀ c ∈ (chunkIterator blob chunkSize offset stop).dropLast, c.length = chunkSize := by
    intro n
    induction n using Nat.strong_induction_on with
    | _ n ih =>
      intro offset stop hn hstop c hc
      rw [chunkIterator.eq_1] at hc
      by_cases h : offset < stop
      · simp only [h, dif_pos] at hc
        by_cases hb : (readAtToBytes blob offset (min (stop - offset) chunkSize)).length = 0
        · simp [hb] at hc
        · rw [dif_neg hb] at hc
          set bytes := readAtToBytes blob offset (min (stop - offset) chunkSize) with hbytes
          set rest := chunkIterator blob chunkSize (offset + bytes.length) stop with hrest
          rcases hrl : rest with _ | ⟨r0, rtl⟩
          · rw [hrl] at hc
            simp at hc
          · rw [hrl] at hc
            rw [List.dropLast_cons₂] at hc
            rcases List.mem_cons.mp hc with hceq | hcmem
            · -- head chunk: the tail being nonempty forces a full-size read
              have hne : rest ≠ [] := by rw [hrl]; exact List.cons_ne_nil r0 rtl
              have hlt : offset + bytes.length < stop :=
                chunkIterator_lt_of_ne_nil blob chunkSize (offset + bytes.length) stop
                  (by rw [← hrest]; exact hne)
              have hlen : bytes.length = min (stop - offset) chunkSize := by
                rw [hbytes, readAtToBytes_length]
                omega
              have : bytes.length = chunkSize := by omega
              rw [hceq, this]
            · have hblen : 0 < bytes.length := Nat.pos_of_ne_zero hb
              exact ih (stop - (offset + bytes.length)) (by omega)
                (offset + bytes.length) stop rfl hstop c (by rw [← hrest, hrl]; exact hcmem)
      · simp [h] at hc
  intro offset stop hstop
  exact main (stop - offset) offset stop rfl hstop

/-! ## Client-side compression negotiator (use-webtorrent hook, part_005) -/

/-- JavaScript `s.startsWith(p)`, modelled over the character list. -/
def strStartsWith (s p : String) : Bool := p.data.isPrefixOf s.data

/-- JavaScript `s.endsWith(p)`, modelled over the character list. -/
def strEndsWith (s p : String) : Bool := p.data.isSuffixOf s.data

/-- JavaScript `s.toLowerCase()` over the character list (ASCII is what the
extension set needs). -/
def strToLower (s : String) : String := String.mk (s.data.map Char.toLower)

/-- The compression tag carried by records and upload forms. -/
inductive Compression
  | gzip
  | none
deriving Repr, DecidableEq

/-- The `COMPRESSIBLE_MIME_PREFIXES` list from the hook. -/
def COMPRESSIBLE_MIME_PREFIXES : List String :=
  ["text/", "application/json", "application/javascript", "application/xml"]

/-- The extensions matched by the case-insensitive `ALREADY_COMPRESSED_EXT`
regular expression. -/
def ALREADY_COMPRESSED_EXTS : List String :=
  ["zip", "gz", "tgz", "bz2", "xz", "7z", "rar", "mp4", "mkv", "webm", "mov",
   "jpg", "jpeg", "png", "gif", "bmp", "pdf"]

/-- Model of `ALREADY_COMPRESSED_EXT.test(name)`: the anchored, case-insensitive match
of a dot followed by one of the extensions at the end of the name. -/
def matchesAlreadyCompressedExt (name : String) : Bool :=
  ALREADY_COMPRESSED_EXTS.any fun ext => strEndsWith (strToLower name) ("." ++ ext)

/-- A browser `File`: name, raw bytes and declared MIME type (possibly the
empty string, which JavaScript treats as falsy). -/
structure BrowserFile where
  name : String
  bytes : List Nat
  type : String
deriving Repr, DecidableEq

/-- The `file.size` property is the byte length. -/
def fileSize (f : BrowserFile) : Nat := f.bytes.length

/-- The fallback `file.type` or else application/octet-stream. -/
def originalTypeOf (f : BrowserFile) : String :=
  if f.type = "" then "application/octet-stream" else f.type

/-- Model of `shouldCompress` (part_005 lines 106-111): refuse known already-compressed
extensions, refuse files under 8KB, otherwise require a compressible MIME
prefix (an empty `file.type` matches no prefix). -/
def shouldCompress (f : BrowserFile) : Bool :=
  if matchesAlreadyCompressedExt f.name then false
  else if fileSize f < 8 * 1024 then false
  else COMPRESSIBLE_MIME_PREFIXES.any fun p => strStartsWith f.type p

/-- Model of `compressionWorthwhile` (part_005 line 98), which tests
`compressed < original * 0.9`.  The source computes in JavaScript numbers; over the
integer byte counts involved this is `10 * compressed < 9 * original`. -/
def compressionWorthwhile (original compressed : Nat) : Bool :=
  compressed * 10 < original * 9

/-- What `compressFileIfUseful` returns: the transport bytes, the chosen
compression tag, and the authoritative original metadata. -/
structure CompressOutcome where
  blobBytes : List Nat
  compression : Compression
  originalName : String
  originalSize : Nat
  originalType : String
deriving Repr, DecidableEq

/-- Model of `compressFileIfUseful` (part_005 lines 113-180), parameterised by the
gzip primitive `gz` (CompressionStream or the fflate fallback — both apply
the same worthwhile test).  Skips compression when `shouldCompress` is false,
and accepts the compressed bytes only when `compressionWorthwhile`; otherwise
the original bytes travel with tag `none`. -/
def compressFileIfUseful (gz : List Nat → List Nat) (f : BrowserFile) : CompressOutcome :=
  if shouldCompress f = false then
    { blobBytes := f.bytes, compression := Compression.none,
      originalName := f.name, originalSize := fileSize f, originalType := originalTypeOf f }
  else
    let compressed := gz f.bytes
    if compressionWorthwhile (fileSize f) compressed.length then
      { blobBytes := compressed, compression := Compression.gzip,
        originalName := f.name, originalSize := fileSize f, originalType := originalTypeOf f }
    else
      { blobBytes := f.bytes, compression := Compression.none,
        originalName := f.name, originalSize := fileSize f, originalType := originalTypeOf f }

/-- Model of `maybeDecompressBlob` (part_005 lines 182-207), parameterised by the
gunzip primitive: decompress only when the tag says gzip, otherwise return
the bytes untouched (an absent tag behaves like `none`). -/
def maybeDecompressBlob (gunzip : List Nat → List Nat) (blobBytes : List Nat)
    (compression : Option Compression) : List Nat :=
  match compression with
  | Option.none => blobBytes
  | some Compression.none => blobBytes
  | some Compression.gzip => gunzip blobBytes

/-! ## Server-side share records (irohService.ts) -/

/-- The `SharedBlobRecord` interface (irohService.ts lines 14-27).  Fields the source marks
optional are `Option`s here. -/
structure SharedBlobRecord where
  hash : String
  name : String
  size : Nat
  compressedSize : Option Nat
  mimeType : String
  owner : Option String
  createdAt : String
  ticket : String
  originalName : Option String
  originalSize : Option Nat
  originalType : Option String
  compression : Option Compression
deriving Repr, DecidableEq

/-- Options accepted by `shareFileFromPath` (irohService.ts lines 78-86). -/
structure ShareFileOptions where
  originalName : String
  mimeType : String
  owner : Option String
  originalSize : Option Nat
  originalType : Option String
  compression : Option Compression
deriving Repr, DecidableEq

/-- The record `shareFileFromPath` builds and publishes (lines 97-110):
`uploadedSize` plays the part of `stats.size`, the on-disk byte count of the
uploaded (possibly compressed) file. -/
def shareFileRecord (uploadedSize : Nat) (hash ticket createdAt : String)
    (opts : ShareFileOptions) : SharedBlobRecord :=
  { hash := hash
    name := opts.originalName
    size := opts.originalSize.getD uploadedSize
    compressedSize := some uploadedSize
    mimeType := opts.mimeType
    owner := opts.owner
    createdAt := createdAt
    ticket := ticket
    originalName := some opts.originalName
    originalSize := some (opts.originalSize.getD uploadedSize)
    originalType := some (opts.originalType.getD opts.mimeType)
    compression := some (opts.compression.getD Compression.none) }

/-- The record `shareTextContent` builds (lines 129-142): fixed name and
`text/plain` type, never compressed. -/
def shareTextRecord (contents : List Nat) (owner : Option String)
    (hash ticket createdAt : String) : SharedBlobRecord :=
  { hash := hash
    name := "shared-text.txt"
    size := contents.length
    compressedSize := some contents.length
    mimeType := "text/plain"
    owner := owner
    createdAt := createdAt
    ticket := ticket
    originalName := some "shared-text.txt"
    originalSize := some contents.length
    originalType := some "text/plain"
    compression := some Compression.none }

/-- The multipart request `createTorrent` (part_005 lines 222-240) posts to
`/share-file`: the transport bytes with their upload name/type, plus the
authoritative original metadata fields. -/
structure UploadRequest where
  fileBytes : List Nat
  fileOriginalname : String
  fileMimetype : String
  bodyOriginalName : Option String
  bodyOwner : Option String
  bodyOriginalSize : Option Nat
  bodyOriginalType : Option String
  bodyCompression : Option Compression
deriving Repr, DecidableEq

/-- The upload the client hook builds after negotiating compression: a `.gz`
suffix and `application/gzip` type when the compressed bytes were accepted. -/
def createTorrentUpload (gz : List Nat → List Nat) (f : BrowserFile)
    (owner : String) : UploadRequest :=
  let compressed := compressFileIfUseful gz f
  { fileBytes := compressed.blobBytes
    fileOriginalname :=
      if compressed.compression = Compression.gzip then f.name ++ ".gz" else f.name
    fileMimetype :=
      if compressed.compression = Compression.gzip then "application/gzip" else originalTypeOf f
    bodyOriginalName := some compressed.originalName
    bodyOwner := some owner
    bodyOriginalSize := some compressed.originalSize
    bodyOriginalType := some compressed.originalType
    bodyCompression := some compressed.compression }

/-- Model of `handleFileShare` (controller lines 278-304): translate the multipart
fields into `shareFileFromPath` options, defaulting exactly as the source
does, and publish the record. -/
def handleFileShare (req : UploadRequest) (hash ticket createdAt : String) :
    SharedBlobRecord :=
  let mimeType := if req.fileMimetype = "" then "application/octet-stream" else req.fileMimetype
  shareFileRecord req.fileBytes.length hash ticket createdAt
    { originalName := req.bodyOriginalName.getD req.fileOriginalname
      mimeType := mimeType
      owner := some (req.bodyOwner.getD "Anonymous")
      originalSize := some (req.bodyOriginalSize.getD req.fileBytes.length)
      originalType := some (req.bodyOriginalType.getD mimeType)
      compression := some (req.bodyCompression.getD Compression.none) }

/-- The complete share pipeline for a browser file: client-side compression
negotiation followed by the server handler publishing the record. -/
def sharePipeline (gz : List Nat → List Nat) (f : BrowserFile) (owner : String)
    (hash ticket createdAt : String) : SharedBlobRecord :=
  handleFileShare (createTorrentUpload gz f owner) hash ticket createdAt

/-! ## Inspect / preview (irohService.ts lines 148-169 and 226-245) -/

/-- The only error the controller distinguishes: a malformed ticket or
unreachable content (`BlobTicket.fromString` or `ensureBlobAvailable`
throwing). -/
inductive TicketError
  | ticketInvalid
deriving Repr, DecidableEq

/-- What `inspectTicket` resolves to: the record plus the echoed ticket. -/
structure InspectResult where
  record : SharedBlobRecord
  downloadUrlTicket : String
deriving Repr, DecidableEq

/-- The fallback record synthesized when no local `SharedBlobRecord` exists
for the resolved hash (irohService.ts lines 158-166). -/
def fallbackRecord (hash : String) (size : Nat) (createdAt ticket : String) :
    SharedBlobRecord :=
  { hash := hash
    name := hash ++ ".bin"
    size := size
    compressedSize := some size
    mimeType := "application/octet-stream"
    owner := Option.none
    createdAt := createdAt
    ticket := ticket
    originalName := Option.none
    originalSize := Option.none
    originalType := Option.none
    compression := Option.none }

/-- Model of `inspectTicket` (lines 148-169).  `decodeTicket` is the result of
`BlobTicket.fromString` (`Option.none` when the string is malformed),
`reachable` models `ensureBlobAvailable` succeeding, `sharedBlobs` is the
registry lookup and `storeSize` the size query of the store. -/
def inspectTicket (decodeTicket : Option String) (reachable : String → Bool)
    (sharedBlobs : String → Option SharedBlobRecord) (storeSize : String → Nat)
    (createdAt ticketString : String) : Except TicketError InspectResult :=
  match decodeTicket with
  | Option.none => Except.error TicketError.ticketInvalid
  | some hash =>
    if reachable hash then
      match sharedBlobs hash with
      | some stored => Except.ok { record := stored, downloadUrlTicket := ticketString }
      | Option.none =>
          Except.ok { record := fallbackRecord hash (storeSize hash) createdAt ticketString,
                      downloadUrlTicket := ticketString }
    else Except.error TicketError.ticketInvalid

/-- What `getPreviewChunk` returns (lines 226-245). -/
structure PreviewChunk where
  buffer : List Nat
  mimeType : String
  isText : Bool
deriving Repr, DecidableEq

/-- Model of `getPreviewChunk`: read at most `byteLength` bytes from offset 0;
`mimeType` falls back to octet-stream when no record exists; `isText` looks
only at the stored metadata (`text/` prefix or a name ending in `.md`),
never at the bytes. -/
def getPreviewChunk (blob : List Nat) (metadata : Option SharedBlobRecord)
    (byteLength : Nat) : PreviewChunk :=
  let buffer := readAtToBytes blob 0 byteLength
  let mimeType :=
    match metadata with
    | some meta => meta.mimeType
    | Option.none => "application/octet-stream"
  let isText := strStartsWith mimeType "text/" ||
    (match metadata with
     | some meta => strEndsWith meta.name ".md"
     | Option.none => false)
  { buffer := buffer, mimeType := mimeType, isText := isText }

/-- The JSON payload `handlePreviewTicket` builds (controller lines 394-397):
text content when `isText`, otherwise a base64 wrapping of the bytes. -/
inductive PreviewPayload
  | textContent (content : List Nat) (mimeType : String)
  | base64 (content : List Nat) (mimeType : String)
deriving Repr, DecidableEq

/-- The branch on `preview.isText` in `handlePreviewTicket`. -/
def handlePreviewPayload (p : PreviewChunk) : PreviewPayload :=
  if p.isText then PreviewPayload.textContent p.buffer p.mimeType
  else PreviewPayload.base64 p.buffer p.mimeType

/-- The clamp `byteLimit = Math.max(1024, Math.min(bytesParam, 2 * 1024 * 1024))`
from controller line 386. -/
def handlePreviewByteLimit (bytesParam : Nat) : Nat :=
  max 1024 (min bytesParam (2 * 1024 * 1024))

/-! ## The in-memory registry and its operations (C9) -/

/-- The module-level `sharedBlobs` map, keyed by hash. -/
def BlobMap := String → Option SharedBlobRecord

/-- Model of `Map.set`: the later write wins. -/
def mapSet (m : BlobMap) (k : String) (v : SharedBlobRecord) : BlobMap :=
  fun q => if q = k then some v else m q

/-- The operations of the iroh service that touch (or could touch) the
registry.  `shareFile` carries the bytes that end up in the store so the
content hash can be computed from them. -/
inductive IrohOp
  | shareFile (bytes : List Nat) (opts : ShareFileOptions) (ticket createdAt : String)
  | shareText (contents : List Nat) (owner : Option String) (ticket createdAt : String)
  | inspect (ticket : String)
  | download (ticket : String)
  | preview (ticket : String) (byteLength : Nat)

/-- Effect of each operation on the registry, with `hashFn` the
content-addressed hash (deterministic in the bytes).  Only the two share
operations write, and they write with `Map.set`, replacing any record
already stored under the hash.  `inspectTicket`, `downloadBlob`,
`getBlobStream` and `getPreviewChunk` only read `sharedBlobs`. -/
def applyOp (hashFn : List Nat → String) (m : BlobMap) : IrohOp → BlobMap
  | IrohOp.shareFile bytes opts ticket createdAt =>
      mapSet m (hashFn bytes)
        (shareFileRecord bytes.length (hashFn bytes) ticket createdAt opts)
  | IrohOp.shareText contents owner ticket createdAt =>
      mapSet m (hashFn contents)
        (shareTextRecord contents owner (hashFn contents) ticket createdAt)
  | IrohOp.inspect _ => m
  | IrohOp.download _ => m
  | IrohOp.preview _ _ => m

/-- Whether an operation is one of the read-only ones. -/
def isReadOp : IrohOp → Bool
  | IrohOp.inspect _ => true
  | IrohOp.download _ => true
  | IrohOp.preview _ _ => true
  | _ => false

/-! ## Client chunked download: retry loop and assembly (part_005) -/

def DOWNLOAD_CHUNK_SIZE : Nat := 512 * 1024

def MAX_PARALLEL_CHUNKS : Nat := 4

def MAX_CHUNK_RETRIES : Nat := 3

def RETRY_BASE_DELAY_MS : Nat := 400

/-- Model of `chooseChunkSize` (part_005 line 104): 1MB chunks past 200MB. -/
def chooseChunkSize (bytes : Nat) : Nat :=
  if bytes > 200 * 1024 * 1024 then 1024 * 1024 else DOWNLOAD_CHUNK_SIZE

/-- What one `fetch` of a chunk does: succeed with bytes, or throw while the
browser is online or offline (`navigator.onLine` at the catch). -/
inductive FetchOutcome
  | success (bytes : List Nat)
  | failure (online : Bool)
deriving Repr, DecidableEq

def FetchOutcome.isFailure : FetchOutcome → Bool
  | FetchOutcome.success _ => false
  | FetchOutcome.failure _ => true

/-- Observable trace of one `fetchChunk` call: the returned bytes (none when
the loop threw), how many fetches ran, the backoff sleeps in order, and how
many `waitForOnline` suspensions happened. -/
structure FetchChunkResult where
  result : Option (List Nat)
  fetches : Nat
  delays : List Nat
  offlineWaits : Nat
deriving Repr, DecidableEq

/-- The `while (attempt < MAX_CHUNK_RETRIES)` loop of `fetchChunk` (part_005
lines 431-462).  On success the buffer is returned at once.  On a failure the
source increments `attempt` first, then waits for connectivity if offline,
sleeps `RETRY_BASE_DELAY_MS * attempt`, and rethrows once
`attempt >= MAX_CHUNK_RETRIES`.  `outcome i` is what the `(i+1)`-th fetch
does. -/
def fetchChunkGo (outcome : Nat → FetchOutcome) (attempt : Nat) : FetchChunkResult :=
  if _h : attempt < MAX_CHUNK_RETRIES then
    match outcome attempt with
    | FetchOutcome.success bytes =>
        { result := some bytes, fetches := 1, delays := [], offlineWaits := 0 }
    | FetchOutcome.failure online =>
        let wait := if online then 0 else 1
        let delay := RETRY_BASE_DELAY_MS * (attempt + 1)
        if MAX_CHUNK_RETRIES ≤ attempt + 1 then
          { result := Option.none, fetches := 1, delays := [delay], offlineWaits := wait }
        else
          let rest := fetchChunkGo outcome (attempt + 1)
          { result := rest.result, fetches := 1 + rest.fetches,
            delays := delay :: rest.delays, offlineWaits := wait + rest.offlineWaits }
  else { result := Option.none, fetches := 0, delays := [], offlineWaits := 0 }
termination_by MAX_CHUNK_RETRIES - attempt
decreasing_by
  omega

/-- One chunk download starting at `attempt = 0`. -/
def fetchChunk (outcome : Nat → FetchOutcome) : FetchChunkResult :=
  fetchChunkGo outcome 0

/-- The function `attemptChunkedDownload` waits for `Promise.all` of the workers: the
download delivers a buffer list only when every chunk fetch resolved (an
exhausted retry budget on any chunk rejects the whole download, and nothing
is saved to disk). -/
def downloadAllChunks (outcomes : Nat → Nat → FetchOutcome) : Nat → Option (List (List Nat))
  | 0 => some []
  | n + 1 =>
    match downloadAllChunks outcomes n, (fetchChunk (outcomes n)).result with
    | some acc, some b => some (acc ++ [b])
    | _, _ => Option.none

/-- The assignment `chunks[index] = buffer` on the pre-sized array: a write at the claimed
index, leaving every other slot alone. -/
def writeChunk (store : Nat → Option (List Nat)) (i : Nat) (buf : List Nat) :
    Nat → Option (List Nat) :=
  fun j => if j = i then some buf else store j

/-- Replay the worker writes in completion order: each worker stores the
buffer of chunk `i` at index `i` of the shared array (part_005 line 447). -/
def runWrites (data : Nat → List Nat) (order : List Nat) : Nat → Option (List Nat) :=
  order.foldl (fun store i => writeChunk store i (data i)) (fun _ => Option.none)

/-- Model of `new Blob(chunks)`: concatenation of the array slots in index order. -/
def assembleChunks (chunkCount : Nat) (store : Nat → Option (List Nat)) : List Nat :=
  ((List.range chunkCount).map fun i => (store i).getD []).flatten

theorem runWrites_mem (data : Nat → List Nat) :
    ∀ order : List Nat, ∀ store j, j ∈ order →
      (order.foldl (fun s i => writeChunk s i (data i)) store) j = some (data j) := by
  intro order
  induction order with
  | nil => intro store j hj; simp at hj
  | cons i rest ih =>
    intro store j hj
    rw [List.foldl_cons]
    rcases List.mem_cons.mp hj with hji | hjr
    · by_cases hmem : j ∈ rest
      · exact ih _ j hmem
      · have hnot : ∀ s, rest.foldl (fun s i => writeChunk s i (data i)) s j = s j := by
          intro s
          clear ih hj
          induction rest generalizing s with
          | nil => simp
          | cons r rtl ihr =>
            rw [List.foldl_cons]
            have hjr2 : j ≠ r := fun hc => hmem (hc ▸ List.mem_cons_self r rtl)
            have hrtl : j ∉ rtl := fun hc => hmem (List.mem_cons_of_mem r hc)
            rw [ihr hrtl]
            simp [writeChunk, hjr2]
        rw [hnot]
        simp [writeChunk, hji]
    · exact ih _ j hjr

/-! ## Shared helper lemmas -/

/-- Streaming the blob with no requested range yields exactly the blob. -/
theorem getBlobStream_none_flatten (blob : List Nat) (chunkSize : Nat)
    (hcs : 0 < chunkSize) :
    (getBlobStream blob chunkSize Option.none).chunks.flatten = blob := by
  have h1 : ((0 : Int)).toNat = 0 := rfl
  have h2 : (((blob.length : Int) - 1) + 1).toNat = blob.length := by omega
  show (chunkIterator blob chunkSize ((0 : Int)).toNat
      (((blob.length : Int) - 1) + 1).toNat).flatten = blob
  rw [h1, h2, chunkIterator_join blob chunkSize hcs 0 blob.length le_rfl]
  simp

/-- A chunked-download run rejects exactly when some chunk exhausted its
retry budget. -/
theorem downloadAllChunks_none_iff (outcomes : Nat → Nat → FetchOutcome) :
    ∀ chunkCount, downloadAllChunks outcomes chunkCount = Option.none ↔
      ∃ i, i < chunkCount ∧ (fetchChunk (outcomes i)).result = Option.none := by
  intro n
  induction n with
  | zero => simp [downloadAllChunks]
  | succ n ih =>
    rw [downloadAllChunks]
    rcases hprev : downloadAllChunks outcomes n with _ | acc <;>
      rcases hres : (fetchChunk (outcomes n)).result with _ | b
    · constructor
      · intro _
        obtain ⟨i, hi, hf⟩ := ih.mp hprev
        exact ⟨i, Nat.lt_succ_of_lt hi, hf⟩
      · intro _
        rfl
    · constructor
      · intro _
        obtain ⟨i, hi, hf⟩ := ih.mp hprev
        exact ⟨i, Nat.lt_succ_of_lt hi, hf⟩
      · intro _
        rfl
    · constructor
      · intro _
        exact ⟨n, Nat.lt_succ_self n, hres⟩
      · intro _
        rfl
    · constructor
      · intro hcontra
        exact absurd hcontra (by simp)
      · rintro ⟨i, hi, hf⟩
        rcases Nat.lt_succ_iff_lt_or_eq.mp hi with hlt | heq
        · exact absurd (ih.mpr ⟨i, hlt, hf⟩) (by rw [hprev]; simp)
        · rw [heq] at hf
          rw [hf] at hres
          cases hres

/-! ## Claim theorems -/

/-- Claim C1.  The spec requires `GET /download` with `Range: bytes=start-end`
to answer 206 with exactly the requested bytes.  The source handler never
reads the Range header and calls `getBlobStream` without a range: for every
request, with or without a Range header, the status is 200, the body is the
entire blob, and the response does not depend on the header at all.  This
theorem documents that divergence (the 206 path of the claim does not exist in the
code). -/
theorem c1_download_ignores_range_header (blob : List Nat) (chunkSize : Nat)
    (rangeHeader : Option (Int × Int)) (hcs : 0 < chunkSize) :
    (handleDownloadTicket blob chunkSize rangeHeader).status = 200 ∧
    (handleDownloadTicket blob chunkSize rangeHeader).body = blob ∧
    handleDownloadTicket blob chunkSize rangeHeader
      = handleDownloadTicket blob chunkSize Option.none := by
  refine ⟨rfl, ?_, rfl⟩
  show (getBlobStream blob chunkSize Option.none).chunks.flatten = blob
  exact getBlobStream_none_flatten blob chunkSize hcs

/-- Witness for C1: a five-byte blob requested with `Range: bytes=1-2` still
produces a 200 answer carrying all five bytes. -/
theorem c1_download_ignores_range_header_witness :
    0 < 2 ∧
    ((handleDownloadTicket [10, 20, 30, 40, 50] 2 (some (1, 2))).status = 200 ∧
     (handleDownloadTicket [10, 20, 30, 40, 50] 2 (some (1, 2))).body = [10, 20, 30, 40, 50] ∧
     handleDownloadTicket [10, 20, 30, 40, 50] 2 (some (1, 2))
       = handleDownloadTicket [10, 20, 30, 40, 50] 2 Option.none) :=
  ⟨by decide, c1_download_ignores_range_header [10, 20, 30, 40, 50] 2 (some (1, 2)) (by decide)⟩

/-- Claim C2 counterexample.  On the five-byte blob `[1,2,3,4,5]` the request
`bytes=10-20` lies entirely outside the blob, yet `getBlobStream` is not an
error: the start is clamped to `size - 1 = 4` and the stream returns the
final byte.  The source has no error path for out-of-range requests at
all. -/
theorem c2_entirely_outside_range_returns_bytes :
    (getBlobStream [1, 2, 3, 4, 5] 2 (some (10, 20))).chunks.flatten = [5] ∧
    (getBlobStream [1, 2, 3, 4, 5] 2 (some (10, 20))).rangeStart = 4 ∧
    (getBlobStream [1, 2, 3, 4, 5] 2 (some (10, 20))).rangeEnd = 4 := by
  have hch : (getBlobStream [1, 2, 3, 4, 5] 2 (some (10, 20))).chunks
      = chunkIterator [1, 2, 3, 4, 5] 2 4 5 := by
    simp only [getBlobStream]
    norm_num
    rfl
  refine ⟨?_, ?_, ?_⟩
  · rw [hch, chunkIterator_join [1, 2, 3, 4, 5] 2 (by decide) 4 5 (by decide)]
    rfl
  · simp only [getBlobStream]
    norm_num
  · simp only [getBlobStream]
    norm_num

/-- Claim C2 amended.  The requested start offset is clamped into
`[0, size-1]` and the end offset to at most `size-1`; a requested range lying
entirely past the end of the blob is not an error: the stream serves the
final byte of the blob. -/
theorem c2_range_clamping (blob : List Nat) (chunkSize : Nat) (s e : Int)
    (hsize : 0 < blob.length) (hcs : 0 < chunkSize) :
    0 ≤ (getBlobStream blob chunkSize (some (s, e))).rangeStart ∧
    (getBlobStream blob chunkSize (some (s, e))).rangeStart ≤ (blob.length : Int) - 1 ∧
    (getBlobStream blob chunkSize (some (s, e))).rangeEnd ≤ (blob.length : Int) - 1 ∧
    ((blob.length : Int) ≤ s → s ≤ e →
      (getBlobStream blob chunkSize (some (s, e))).chunks.flatten
        = blob.drop (blob.length - 1)) := by
  refine ⟨?_, ?_, ?_, ?_⟩
  · show (0 : Int) ≤ max 0 (min s ((blob.length : Int) - 1))
    omega
  · show max 0 (min s ((blob.length : Int) - 1)) ≤ (blob.length : Int) - 1
    omega
  · show min e ((blob.length : Int) - 1) ≤ (blob.length : Int) - 1
    omega
  · intro hs hse
    show (chunkIterator blob chunkSize (max 0 (min s ((blob.length : Int) - 1))).toNat
        (min e ((blob.length : Int) - 1) + 1).toNat).flatten = blob.drop (blob.length - 1)
    have h1 : (max 0 (min s ((blob.length : Int) - 1))).toNat = blob.length - 1 := by
      omega
    have h2 : (min e ((blob.length : Int) - 1) + 1).toNat = blob.length := by
      omega
    rw [h1, h2,
      chunkIterator_join blob chunkSize hcs (blob.length - 1) blob.length le_rfl]
    have h3 : blob.length - (blob.length - 1) = 1 := by omega
    rw [h3]
    apply List.take_of_length_le
    rw [List.length_drop]
    omega

/-- Witness for the amended C2 theorem on the blob `[1,2,3,4,5]` with the
entirely-out-of-range request `bytes=10-20`. -/
theorem c2_range_clamping_witness :
    0 < ([1, 2, 3, 4, 5] : List Nat).length ∧ 0 < 2 ∧
    (0 ≤ (getBlobStream [1, 2, 3, 4, 5] 2 (some (10, 20))).rangeStart ∧
     (getBlobStream [1, 2, 3, 4, 5] 2 (some (10, 20))).rangeStart
       ≤ (([1, 2, 3, 4, 5] : List Nat).length : Int) - 1 ∧
     (getBlobStream [1, 2, 3, 4, 5] 2 (some (10, 20))).rangeEnd
       ≤ (([1, 2, 3, 4, 5] : List Nat).length : Int) - 1 ∧
     ((([1, 2, 3, 4, 5] : List Nat).length : Int) ≤ 10 → (10 : Int) ≤ 20 →
       (getBlobStream [1, 2, 3, 4, 5] 2 (some (10, 20))).chunks.flatten
         = ([1, 2, 3, 4, 5] : List Nat).drop (([1, 2, 3, 4, 5] : List Nat).length - 1))) :=
  ⟨by decide, by decide,
    c2_range_clamping [1, 2, 3, 4, 5] 2 10 20 (by decide) (by decide)⟩

/-- Claim C6.  RangeStreamer coverage: streaming the whole blob concatenates
back to a single full read; over any in-bounds window the chunk
concatenation is exactly the bytes of that window (no gaps, no overlaps); and
every chunk except possibly the last has exactly the fixed chunk length. -/
theorem c6_chunk_iterator_coverage (blob : List Nat) (chunkSize : Nat)
    (hcs : 0 < chunkSize) :
    (getBlobStream blob chunkSize Option.none).chunks.flatten = blob ∧
    (∀ startOffset stop, stop ≤ blob.length →
      (chunkIterator blob chunkSize startOffset stop).flatten
        = (blob.drop startOffset).take (stop - startOffset)) ∧
    (∀ startOffset stop, stop ≤ blob.length →
      ∀ c ∈ (chunkIterator blob chunkSize startOffset stop).dropLast,
        c.length = chunkSize) :=
  ⟨getBlobStream_none_flatten blob chunkSize hcs,
   chunkIterator_join blob chunkSize hcs,
   chunkIterator_sizes blob chunkSize⟩

/-- Witness for C6 on a six-byte blob with 4-byte chunks. -/
theorem c6_chunk_iterator_coverage_witness :
    0 < 4 ∧
    ((getBlobStream [3, 1, 4, 1, 5, 9] 4 Option.none).chunks.flatten = [3, 1, 4, 1, 5, 9] ∧
     (∀ startOffset stop, stop ≤ ([3, 1, 4, 1, 5, 9] : List Nat).length →
       (chunkIterator [3, 1, 4, 1, 5, 9] 4 startOffset stop).flatten
         = (([3, 1, 4, 1, 5, 9] : List Nat).drop startOffset).take (stop - startOffset)) ∧
     (∀ startOffset stop, stop ≤ ([3, 1, 4, 1, 5, 9] : List Nat).length →
       ∀ c ∈ (chunkIterator [3, 1, 4, 1, 5, 9] 4 startOffset stop).dropLast,
         c.length = 4)) :=
  ⟨by decide, c6_chunk_iterator_coverage [3, 1, 4, 1, 5, 9] 4 (by decide)⟩

/-- Claim C3.  For every completed share through the client pipeline
(compression negotiation followed by the server building the record), either
the record carries `compression = gzip` and its transport size is strictly
under ninety percent of the original size, or it carries
`compression = none` and `compressedSize` equals `originalSize`. -/
theorem c3_gzip_only_when_worthwhile (gz : List Nat → List Nat) (f : BrowserFile)
    (owner hash ticket createdAt : String) :
    ((sharePipeline gz f owner hash ticket createdAt).compression
        = some Compression.gzip ∧
      (sharePipeline gz f owner hash ticket createdAt).compressedSize.getD 0 * 10
        < (sharePipeline gz f owner hash ticket createdAt).originalSize.getD 0 * 9) ∨
    ((sharePipeline gz f owner hash ticket createdAt).compression
        = some Compression.none ∧
      (sharePipeline gz f owner hash ticket createdAt).compressedSize
        = (sharePipeline gz f owner hash ticket createdAt).originalSize) := by
  unfold sharePipeline handleFileShare createTorrentUpload shareFileRecord compressFileIfUseful
  by_cases h1 : shouldCompress f = false
  · right
    simp [h1, fileSize]
  · by_cases h2 : compressionWorthwhile (fileSize f) (gz f.bytes).length = true
    · left
      have h2' : (gz f.bytes).length * 10 < fileSize f * 9 := by
        simpa [compressionWorthwhile] using h2
      simp [h1, h2, h2']
    · right
      have h2b : ¬compressionWorthwhile f.bytes.length (gz f.bytes).length = true := by
        simpa [fileSize] using h2
      simp [h1, h2b, fileSize]

/-- Claim C7.  Whenever the share pipeline applies gzip, decompressing the
transport bytes with a gunzip that inverts the gzip primitive recovers the
original bytes of the file; when it does not compress, the bytes travel
untouched.  Round-trip identity of the pipeline. -/
theorem c7_compression_roundtrip (gz gunzip : List Nat → List Nat)
    (hinv : ∀ b, gunzip (gz b) = b) (f : BrowserFile) :
    maybeDecompressBlob gunzip (compressFileIfUseful gz f).blobBytes
        (some (compressFileIfUseful gz f).compression) = f.bytes := by
  unfold compressFileIfUseful
  by_cases h1 : shouldCompress f = false
  · simp [h1, maybeDecompressBlob]
  · by_cases h2 : compressionWorthwhile (fileSize f) (gz f.bytes).length = true
    · simp [h1, h2, maybeDecompressBlob, hinv]
    · simp [h1, h2, maybeDecompressBlob]

/-- Witness for C7: the identity pair trivially satisfies the inversion law,
and a concrete two-byte text file comes back unchanged. -/
theorem c7_compression_roundtrip_witness :
    (∀ b : List Nat, id (id b) = b) ∧
    maybeDecompressBlob id
        (compressFileIfUseful id { name := "notes.txt", bytes := [104, 105], type := "text/plain" }).blobBytes
        (some (compressFileIfUseful id { name := "notes.txt", bytes := [104, 105], type := "text/plain" }).compression)
      = [104, 105] :=
  ⟨fun _ => rfl,
    c7_compression_roundtrip id id (fun _ => rfl)
      { name := "notes.txt", bytes := [104, 105], type := "text/plain" }⟩

/-- The fetch trace in which the first three fetches throw while the browser
is offline and any later fetch would succeed. -/
def offlineThenSuccess : Nat → FetchOutcome :=
  fun n => if n < 3 then FetchOutcome.failure false else FetchOutcome.success [7]

/-- Claim C4 counterexample.  The source increments `attempt` before its
offline check, so an offline failure does consume a retry attempt: with
three offline failures the loop performs three offline suspensions, sleeps
400/800/1200 ms, and then fails the chunk for good — the fourth fetch, which
would have succeeded, is never made.  Under the claim (offline suspensions
consume no retry attempt) this download would have succeeded. -/
theorem c4_offline_failure_consumes_attempt :
    fetchChunk offlineThenSuccess
      = { result := Option.none, fetches := 3, delays := [400, 800, 1200],
          offlineWaits := 3 } := by
  rw [fetchChunk, fetchChunkGo.eq_1, fetchChunkGo.eq_1, fetchChunkGo.eq_1]
  norm_num [offlineThenSuccess, MAX_CHUNK_RETRIES, RETRY_BASE_DELAY_MS]

/-- Claim C4 amended.  A chunk fetch is attempted at most
`MAX_CHUNK_RETRIES = 3` times in total (so a failed fetch is retried at most
twice); the chunk fails exactly when the first three fetches all fail,
regardless of whether the failures happened offline (each offline suspension
still consumes an attempt); the backoff before the `k`-th retry (and before
the final throw) is `400 * k` ms; and the download as a whole rejects, with
nothing persisted, exactly when some chunk exhausts its budget. -/
theorem c4_retry_budget (outcome : Nat → FetchOutcome) :
    (fetchChunk outcome).fetches ≤ MAX_CHUNK_RETRIES ∧
    ((fetchChunk outcome).result = Option.none ↔
      ((outcome 0).isFailure = true ∧ (outcome 1).isFailure = true ∧
        (outcome 2).isFailure = true)) ∧
    (fetchChunk outcome).delays
      = (List.range (fetchChunk outcome).delays.length).map
          (fun i => RETRY_BASE_DELAY_MS * (i + 1)) ∧
    (∀ outcomes chunkCount, downloadAllChunks outcomes chunkCount = Option.none ↔
      ∃ i, i < chunkCount ∧ (fetchChunk (outcomes i)).result = Option.none) := by
  refine ⟨?_, ?_, ?_, downloadAllChunks_none_iff⟩ <;>
    rcases h0 : outcome 0 with b0 | o0 <;> rcases h1 : outcome 1 with b1 | o1 <;>
      rcases h2 : outcome 2 with b2 | o2 <;>
      simp [fetchChunk, fetchChunkGo, h0, h1, h2, MAX_CHUNK_RETRIES,
        RETRY_BASE_DELAY_MS, FetchOutcome.isFailure, List.range_succ]

/-- Claim C5.  When every chunk fetch succeeds, replaying the worker
writes in any completion order that claims each index exactly once yields,
after assembly, the concatenation of the chunk buffers in chunk-index order:
the result does not depend on the completion order because each worker
stores its buffer at its claimed index of the pre-sized array, never by
append. -/
theorem c5_assembly_in_index_order (chunkCount : Nat) (data : Nat → List Nat)
    (order : List Nat) (hperm : order.Perm (List.range chunkCount)) :
    assembleChunks chunkCount (runWrites data order)
      = ((List.range chunkCount).map data).flatten := by
  unfold assembleChunks
  congr 1
  apply List.map_congr_left
  intro i hi
  have hmem : i ∈ order := hperm.mem_iff.mpr hi
  rw [runWrites, runWrites_mem data order _ i hmem]
  rfl

/-- Witness for C5: three chunks completing in the order 2, 0, 1 still
assemble as chunk 0 ++ chunk 1 ++ chunk 2. -/
theorem c5_assembly_in_index_order_witness :
    ([2, 0, 1] : List Nat).Perm (List.range 3) ∧
    assembleChunks 3 (runWrites (fun i => [i, i]) [2, 0, 1])
      = ((List.range 3).map (fun i => [i, i])).flatten :=
  ⟨by decide, c5_assembly_in_index_order 3 (fun i => [i, i]) [2, 0, 1] (by decide)⟩

/-- Claim C8.  When a well-formed ticket resolves to reachable content whose
hash has no local record, inspection succeeds with the synthesized fallback:
name is the hash followed by ".bin", mimeType is application/octet-stream,
and size comes from the size query of the store; and in general inspection
succeeds exactly when the ticket decodes and the content is reachable — a
missing record is never an error. -/
theorem c8_inspect_fallback (decodeTicket : Option String) (reachable : String → Bool)
    (sharedBlobs : String → Option SharedBlobRecord) (storeSize : String → Nat)
    (createdAt ticketString hash : String)
    (hdec : decodeTicket = some hash) (hreach : reachable hash = true)
    (hmiss : sharedBlobs hash = Option.none) :
    inspectTicket decodeTicket reachable sharedBlobs storeSize createdAt ticketString
      = Except.ok { record := fallbackRecord hash (storeSize hash) createdAt ticketString,
                    downloadUrlTicket := ticketString } ∧
    (fallbackRecord hash (storeSize hash) createdAt ticketString).name = hash ++ ".bin" ∧
    (fallbackRecord hash (storeSize hash) createdAt ticketString).mimeType
      = "application/octet-stream" ∧
    (fallbackRecord hash (storeSize hash) createdAt ticketString).size = storeSize hash ∧
    (∀ (d : Option String) (r : String → Bool) (sb : String → Option SharedBlobRecord)
        (ss : String → Nat) (ca ts : String),
      (∃ res, inspectTicket d r sb ss ca ts = Except.ok res) ↔
        ∃ h2, d = some h2 ∧ r h2 = true) := by
  subst hdec
  refine ⟨by simp [inspectTicket, hreach, hmiss], rfl, rfl, rfl, ?_⟩
  intro d r sb ss ca ts
  constructor
  · rintro ⟨res, hres⟩
    rcases d with _ | h2
    · simp [inspectTicket] at hres
    · refine ⟨h2, rfl, ?_⟩
      by_contra hr
      have hr2 : r h2 = false := Bool.not_eq_true (r h2) ▸ eq_false_of_ne_true hr
      simp [inspectTicket, hr2] at hres
  · rintro ⟨h2, hd, hr⟩
    subst hd
    rcases hsb : sb h2 with _ | stored
    · exact ⟨{ record := fallbackRecord h2 (ss h2) ca ts, downloadUrlTicket := ts },
        by simp [inspectTicket, hr, hsb]⟩
    · exact ⟨{ record := stored, downloadUrlTicket := ts },
        by simp [inspectTicket, hr, hsb]⟩

/-- Witness for C8 with concrete store functions: the hash "abc" is
reachable, has no record, and the store reports 42 bytes. -/
theorem c8_inspect_fallback_witness :
    inspectTicket (some "abc") (fun _ => true) (fun _ => Option.none) (fun _ => 42) "t0" "tk"
      = Except.ok { record := fallbackRecord "abc" 42 "t0" "tk", downloadUrlTicket := "tk" } ∧
    (fallbackRecord "abc" 42 "t0" "tk").name = "abc" ++ ".bin" ∧
    (fallbackRecord "abc" 42 "t0" "tk").mimeType = "application/octet-stream" ∧
    (fallbackRecord "abc" 42 "t0" "tk").size = 42 ∧
    (∀ (d : Option String) (r : String → Bool) (sb : String → Option SharedBlobRecord)
        (ss : String → Nat) (ca ts : String),
      (∃ res, inspectTicket d r sb ss ca ts = Except.ok res) ↔
        ∃ h2, d = some h2 ∧ r h2 = true) :=
  c8_inspect_fallback (some "abc") (fun _ => true) (fun _ => Option.none) (fun _ => 42)
    "t0" "tk" "abc" rfl rfl rfl

/-- A content-addressed hash: deterministic in the bytes.  The constant
function exhibits two byte-identical shares necessarily colliding on the
same key. -/
def constHash : List Nat → String := fun _ => "h"

/-- The empty registry. -/
def emptyBlobMap : BlobMap := fun _ => Option.none

/-- First share of the bytes [1,2,3]. -/
def shareAOp : IrohOp :=
  IrohOp.shareFile [1, 2, 3]
    { originalName := "a.txt", mimeType := "text/plain", owner := some "alice",
      originalSize := some 3, originalType := some "text/plain",
      compression := some Compression.none }
    "ticket-1" "2024-01-01T00:00:00.000Z"

/-- A later share of the byte-identical content under a different name and
timestamp. -/
def shareBOp : IrohOp :=
  IrohOp.shareFile [1, 2, 3]
    { originalName := "b.txt", mimeType := "text/plain", owner := some "bob",
      originalSize := some 3, originalType := some "text/plain",
      compression := some Compression.none }
    "ticket-2" "2024-01-02T00:00:00.000Z"

/-- Claim C9 counterexample.  A later share of byte-identical content does
not leave the registered record unchanged: `sharedBlobs.set` overwrites the
entry under the hash with a freshly built record (new name, owner, ticket
and createdAt). -/
theorem c9_reshare_overwrites_record :
    applyOp constHash (applyOp constHash emptyBlobMap shareAOp) shareBOp "h"
      ≠ applyOp constHash emptyBlobMap shareAOp "h" := by
  simp only [shareAOp, shareBOp, applyOp, mapSet, constHash, emptyBlobMap,
    shareFileRecord]
  decide

/-- Claim C9 amended.  A BlobRecord is created at share time; the read
operations (inspect, download, preview) never change the registry; but a
share operation always overwrites the entry under its content hash with a
newly built record — so a later share of byte-identical content replaces the
existing record instead of leaving it unchanged. -/
theorem c9_registry_only_shares_write (hashFn : List Nat → String) (m : BlobMap) :
    (∀ op, isReadOp op = true → applyOp hashFn m op = m) ∧
    (∀ bytes opts ticket createdAt,
      applyOp hashFn m (IrohOp.shareFile bytes opts ticket createdAt) (hashFn bytes)
        = some (shareFileRecord bytes.length (hashFn bytes) ticket createdAt opts)) ∧
    (∀ contents owner ticket createdAt,
      applyOp hashFn m (IrohOp.shareText contents owner ticket createdAt) (hashFn contents)
        = some (shareTextRecord contents owner (hashFn contents) ticket createdAt)) := by
  refine ⟨?_, ?_, ?_⟩
  · intro op hop
    cases op <;> simp [isReadOp] at hop <;> rfl
  · intro bytes opts ticket createdAt
    simp [applyOp, mapSet]
  · intro contents owner ticket createdAt
    simp [applyOp, mapSet]

/-- Witness for the amended C9 theorem at the constant hash and empty
registry: a preview leaves the registry unchanged and the first share is
retrievable under its hash. -/
theorem c9_registry_only_shares_write_witness :
    (∀ op, isReadOp op = true → applyOp constHash emptyBlobMap op = emptyBlobMap) ∧
    (∀ bytes opts ticket createdAt,
      applyOp constHash emptyBlobMap (IrohOp.shareFile bytes opts ticket createdAt)
          (constHash bytes)
        = some (shareFileRecord bytes.length (constHash bytes) ticket createdAt opts)) ∧
    (∀ contents owner ticket createdAt,
      applyOp constHash emptyBlobMap (IrohOp.shareText contents owner ticket createdAt)
          (constHash contents)
        = some (shareTextRecord contents owner (constHash contents) ticket createdAt)) :=
  c9_registry_only_shares_write constHash emptyBlobMap

/-- Claim C10.  A preview of a ticket whose hash has no local record reports
mimeType application/octet-stream and isText false, so the handler returns
the base64 payload regardless of the bytes of the blob; and the text
classification is a function of the stored metadata alone, never of the
bytes. -/
theorem c10_preview_without_record (blob : List Nat) (byteLength : Nat) :
    (getPreviewChunk blob Option.none byteLength).mimeType
      = "application/octet-stream" ∧
    (getPreviewChunk blob Option.none byteLength).isText = false ∧
    handlePreviewPayload (getPreviewChunk blob Option.none byteLength)
      = PreviewPayload.base64 (readAtToBytes blob 0 byteLength)
          "application/octet-stream" ∧
    (∀ (blob2 : List Nat) (n2 : Nat) (metadata : Option SharedBlobRecord),
      (getPreviewChunk blob metadata byteLength).isText
        = (getPreviewChunk blob2 metadata n2).isText) := by
  have hsw : strStartsWith "application/octet-stream" "text/" = false := by decide
  refine ⟨rfl, ?_, ?_, ?_⟩
  · simp [getPreviewChunk, hsw]
  · simp [handlePreviewPayload, getPreviewChunk, hsw]
  · intro blob2 n2 metadata
    cases metadata <;> rfl

end AirShare

